import Mathlib

/-!
Shallow embedding of `src/score.py` (fah-monitoring): a Folding@home log
parser.  Python semantics are modelled as follows.

* `dict` becomes an association list with unique keys; `aset`/`aerase`
  act on every pair with the given key, which coincides with Python's
  behaviour on the unique-key lists the program builds.
* Exceptions become `Except ScoreBoard ScoreBoard`: `.error b` means the
  Python code raised with the (partially mutated) board state `b`.  The
  bare `except: pass` of `ScoreBoard.read_log` is the recovery
  `exceptState` applied per line.
* `re.match` with Python's leftmost, greedy, backtracking semantics is
  implemented by a small engine (`runRE`) producing all matches in
  priority order; the head of the list is the match Python returns.
  `\d`, `\w`, `[A-Z]` are modelled over ASCII.
* `datetime.fromisoformat` on `YYYY-MM-DDTHH:MM:SS` strings becomes
  `fromiso`, returning seconds since the civil epoch (`daysFromCivil`);
  `str(timedelta)` becomes `timedeltaStr`.  Numeric credit values
  (Python floats) are modelled as exact rationals; every literal the
  claims touch (for example `12.5`) is exactly representable.
* `date.today()` (an external input) becomes the explicit `today`
  parameter of `read_log`.
-/

set_option maxRecDepth 8000

namespace FahMon

/-! ### Association lists as Python dicts -/

def alookup {α β : Type} [DecidableEq α] (k : α) : List (α × β) → Option β
  | [] => none
  | p :: rest => if p.1 = k then some p.2 else alookup k rest

/-- Dict assignment: replace in place when the key is present (Python
dicts keep insertion order), append otherwise. -/
def aset {α β : Type} [DecidableEq α] (k : α) (v : β) : List (α × β) → List (α × β)
  | [] => [(k, v)]
  | p :: rest => if p.1 = k then (k, v) :: rest else p :: aset k v rest

/-- Dict `del`: drop the pairs with the given key. -/
def aerase {α β : Type} [DecidableEq α] (k : α) (m : List (α × β)) : List (α × β) :=
  m.filter (fun p => ¬ p.1 = k)

/-! ### String helpers (Python `in`, `str.splitlines`, digit parsing) -/

def startsWithL : List Char → List Char → Bool
  | [], _ => true
  | _ :: _, [] => false
  | a :: as, b :: bs => a = b && startsWithL as bs

def containsL (needle : List Char) : List Char → Bool
  | [] => startsWithL needle []
  | c :: rest => startsWithL needle (c :: rest) || containsL needle rest

def natOfDigits (cs : List Char) : Nat :=
  cs.foldl (fun a c => a * 10 + (c.toNat - 48)) 0

def pad (w : Nat) (n : Nat) : String :=
  let s := toString n
  (List.replicate (w - s.length) '0').asString ++ s

def splitlinesAux : List Char → List Char → List String
  | [], acc => if acc.isEmpty then [] else [acc.reverse.asString]
  | '\r' :: '\n' :: rest, acc => acc.reverse.asString :: splitlinesAux rest []
  | '\r' :: rest, acc => acc.reverse.asString :: splitlinesAux rest []
  | '\n' :: rest, acc => acc.reverse.asString :: splitlinesAux rest []
  | c :: rest, acc => splitlinesAux rest (c :: acc)

def splitlines (s : String) : List String := splitlinesAux s.data []

/-! ### A backtracking regex engine with Python `re.match` semantics

Results are produced in backtracking priority order: alternation prefers
the left branch, `?` and `+` are greedy.  The head of the result list is
exactly the match Python's engine reports.  `+` only occurs applied to a
character class in `LINE_REGEX`, so it is primitive here (`plus`). -/

inductive RE where
  | eps : RE
  | cls : (Char → Bool) → RE
  | cat : RE → RE → RE
  | alt : RE → RE → RE
  | opt : RE → RE
  | plus : (Char → Bool) → RE
  | grp : Nat → RE → RE

def lit (s : String) : RE :=
  s.data.foldr (fun c r => RE.cat (RE.cls (fun x => x = c)) r) RE.eps

/-- Suffixes left after greedily consuming 1..k characters of class `p`,
longest consumption first. -/
def plusSuff (p : Char → Bool) : List Char → List (List Char)
  | [] => []
  | c :: rest => if p c then plusSuff p rest ++ [rest] else []

def runRE : RE → List Char → List (Nat × String) → List (List Char × List (Nat × String))
  | .eps, s, g => [(s, g)]
  | .cls p, s, g =>
    match s with
    | [] => []
    | c :: rest => if p c then [(rest, g)] else []
  | .cat a b, s, g => (runRE a s g).flatMap (fun r => runRE b r.1 r.2)
  | .alt a b, s, g => runRE a s g ++ runRE b s g
  | .opt a, s, g => runRE a s g ++ [(s, g)]
  | .plus p, s, g => (plusSuff p s).map (fun r => (r, g))
  | .grp n a, s, g =>
    (runRE a s g).map (fun r => (r.1, aset n ((s.take (s.length - r.1.length)).asString) r.2))

/-- `re.match`: anchored at the start, first match in priority order,
returning the captured groups. -/
def reMatch (r : RE) (s : String) : Option (List (Nat × String)) :=
  (runRE r s.data []).head?.map (fun r => r.2)

/-! ### Character classes of `LINE_REGEX` (ASCII model) -/

def isDigitC (c : Char) : Bool := c.isDigit
def isUpperC (c : Char) : Bool := 'A' ≤ c && c ≤ 'Z'
def isHexC (c : Char) : Bool := c.isDigit || ('a' ≤ c && c ≤ 'f') || ('A' ≤ c && c ≤ 'F')
def isWordC (c : Char) : Bool := c.isAlphanum || c = '_'
def isDotDigitC (c : Char) : Bool := c.isDigit || c = '.'
def isMsgC (c : Char) : Bool := isWordC c || c = ' ' || c = ','
def isAnyC (c : Char) : Bool := ¬ c = '\n'

/-! ### Group numbers for the named groups of the two regexes -/

def gTime : Nat := 1
def gLevel : Nat := 2
def gUnit : Nat := 3
def gSlot : Nat := 4
def gType : Nat := 5
def gJobMsg : Nat := 6
def gProjectId : Nat := 7
def gRun : Nat := 8
def gClone : Nat := 9
def gGen : Nat := 10
def gJobMsgLevel : Nat := 11
def gJobMsgMsg : Nat := 12
def gPoints : Nat := 13
def gMsgType : Nat := 14
def gMsg : Nat := 15
def gYear : Nat := 21
def gMonth : Nat := 22
def gDay : Nat := 23

/-! ### `ScoreBoard.LINE_REGEX`, transcribed alternative by alternative -/

def d2RE : RE := .cat (.cls isDigitC) (.cls isDigitC)

def timeRE : RE := .cat d2RE (.cat (lit ":") (.cat d2RE (.cat (lit ":") d2RE)))

def typeRE : RE := .cat (.alt (lit "0x") (lit "0X")) (.plus isHexC)

def projRE : RE :=
  .cat (lit "Project: ")
  (.cat (.grp gProjectId (.plus isDigitC))
  (.cat (lit " (Run ")
  (.cat (.grp gRun (.plus isDigitC))
  (.cat (lit ", Clone ")
  (.cat (.grp gClone (.plus isDigitC))
  (.cat (lit ", Gen ")
  (.cat (.grp gGen (.plus isDigitC)) (lit ")"))))))))

def errRE : RE :=
  .cat (.grp gJobMsgLevel (lit "ERROR"))
    (.opt (.cat (lit ":") (.cat (.opt (lit " ")) (.grp gJobMsgMsg (.plus isAnyC)))))

def jobAltRE : RE := .cat (.opt (.grp gType typeRE)) (.cat (lit ":") (.grp gJobMsg (.alt projRE errRE)))

def creditAltRE : RE :=
  .cat (lit "Final credit estimate, ") (.cat (.grp gPoints (.plus isDotDigitC)) (lit " points"))

def msgAltRE : RE :=
  .cat (.opt (.cat (.grp gMsgType (lit "Exception")) (.cat (lit ":") (.opt (lit " ")))))
    (.opt (.grp gMsg (.plus isMsgC)))

def bodyRE : RE := .alt jobAltRE (.alt creditAltRE msgAltRE)

def lineRE : RE :=
  .cat (.grp gTime timeRE)
  (.cat (.opt (.cat (lit ":") (.grp gLevel (.plus isUpperC))))
  (.cat (lit ":")
  (.cat (.grp gUnit (.cat (lit "WU") (.plus isDigitC)))
  (.cat (lit ":")
  (.cat (.grp gSlot (.cat (lit "FS") (.plus isDigitC)))
  (.cat (lit ":") bodyRE))))))

/-- `ScoreBoard.DATE_REGEX`. -/
def dateRE : RE :=
  .cat (lit "log-")
  (.cat (.grp gYear (.cat d2RE d2RE))
  (.cat (.grp gMonth d2RE)
  (.cat (.grp gDay d2RE)
  (.cat (lit "-") (.plus isDigitC)))))

/-! ### Calendar dates and timestamps -/

structure Date where
  year : Nat
  month : Nat
  day : Nat
deriving DecidableEq, Repr

def isLeap (y : Nat) : Bool := (y % 4 = 0 && ¬ y % 100 = 0) || y % 400 = 0

def daysInMonth (y m : Nat) : Nat :=
  if m = 2 then (if isLeap y then 29 else 28)
  else if m = 4 ∨ m = 6 ∨ m = 9 ∨ m = 11 then 30
  else 31

/-- `datetime.date`'s validity check (`MINYEAR = 1`, `MAXYEAR = 9999`). -/
def validDate (y m d : Nat) : Bool :=
  1 ≤ y && y ≤ 9999 && 1 ≤ m && m ≤ 12 && 1 ≤ d && d ≤ daysInMonth y m

/-- Days since 1970-01-01 of a civil date (Gregorian, proleptic). -/
def daysFromCivil (y m d : Nat) : Int :=
  let yi : Int := if m ≤ 2 then (y : Int) - 1 else (y : Int)
  let era : Int := yi.fdiv 400
  let yoe : Int := yi - era * 400
  let mp : Int := if 2 < m then (m : Int) - 3 else (m : Int) + 9
  let doy : Int := (153 * mp + 2).fdiv 5 + (d : Int) - 1
  let doe : Int := yoe * 365 + yoe.fdiv 4 - yoe.fdiv 100 + doy
  era * 146097 + doe - 719468

/-- `f-string` rendering of a `datetime.date` (ISO `YYYY-MM-DD`). -/
def Date.str (dt : Date) : String :=
  pad 4 dt.year ++ "-" ++ pad 2 dt.month ++ "-" ++ pad 2 dt.day

/-- `datetime.fromisoformat` on the `YYYY-MM-DDTHH:MM:SS` strings this
program builds, as seconds since the civil epoch. -/
def fromiso (s : String) : Option Int :=
  match s.data with
  | [y1, y2, y3, y4, s1, o1, o2, s2, d1, d2, s3, h1, h2, s4, i1, i2, s5, e1, e2] =>
    if (y1.isDigit && y2.isDigit && y3.isDigit && y4.isDigit && s1 = '-' &&
        o1.isDigit && o2.isDigit && s2 = '-' && d1.isDigit && d2.isDigit &&
        s3 = 'T' && h1.isDigit && h2.isDigit && s4 = ':' && i1.isDigit &&
        i2.isDigit && s5 = ':' && e1.isDigit && e2.isDigit) = true then
      let y := natOfDigits [y1, y2, y3, y4]
      let mo := natOfDigits [o1, o2]
      let d := natOfDigits [d1, d2]
      let h := natOfDigits [h1, h2]
      let mi := natOfDigits [i1, i2]
      let se := natOfDigits [e1, e2]
      if (validDate y mo d && h ≤ 23 && mi ≤ 59 && se ≤ 59) = true then
        some (daysFromCivil y mo d * 86400 + ((h * 3600 + mi * 60 + se : Nat) : Int))
      else none
    else none
  | _ => none

/-- `str(timedelta)` for a whole number of seconds. -/
def timedeltaStr (t : Int) : String :=
  let days : Int := t.fdiv 86400
  let rem : Nat := (t - days * 86400).toNat
  let h := rem / 3600
  let mi := rem % 3600 / 60
  let se := rem % 60
  let base := toString h ++ ":" ++ pad 2 mi ++ ":" ++ pad 2 se
  if days = 0 then base
  else toString days ++ (if days = 1 ∨ days = -1 then " day, " else " days, ") ++ base

/-! ### The data model of `score.py` -/

/-- `FS_MAPPING`; a slot id outside the mapping raises `KeyError`,
modelled as `none`. -/
def FS_MAPPING : String → Option String
  | "FS00" => some "CPU"
  | "FS01" => some "GPU"
  | _ => none

def STR_FAILED_ASSIGNMENT : String := "Failed to get assignment"

def STR_DUMPED : String := "Server did not like results, dumping"

/-- `ScoreEntry.__init__`: every field defaults to `None`. -/
structure ScoreEntry where
  project : Option String := none
  start : Option String := none
  end_ : Option String := none
  duration : Option String := none
  slot : Option String := none
  unit : Option String := none
  points : Option ℚ := none
deriving DecidableEq, Repr

/-- `ScoreBoard.__init__`. -/
structure ScoreBoard where
  scores : List ScoreEntry := []
  started : List ScoreEntry := []
  errors : List String := []
  waiting : List (String × Int) := []
  waited : List (Option Date × List (String × Int)) := []
  dumped : List (Option Date × List (String × Nat)) := []
  current_date : Option Date := none
deriving DecidableEq, Repr

def initBoard : ScoreBoard := {}

/-- The `groupdict()` of a successful `LINE_REGEX` match.  `time`,
`unit` and `slot` participate in every match and are plain strings. -/
structure Info where
  time : String
  unit : String
  slot : String
  level : Option String := none
  type_ : Option String := none
  job_msg : Option String := none
  project_id : Option String := none
  run : Option String := none
  clone : Option String := none
  gen : Option String := none
  job_msg_level : Option String := none
  job_msg_msg : Option String := none
  points : Option String := none
  msg_type : Option String := none
  msg : Option String := none
deriving DecidableEq, Repr

/-- `LINE_REGEX.match(line)`, read out into the group dictionary. -/
def parseLine (s : String) : Option Info :=
  (reMatch lineRE s).map (fun g =>
    { time := (alookup gTime g).getD ""
      unit := (alookup gUnit g).getD ""
      slot := (alookup gSlot g).getD ""
      level := alookup gLevel g
      type_ := alookup gType g
      job_msg := alookup gJobMsg g
      project_id := alookup gProjectId g
      run := alookup gRun g
      clone := alookup gClone g
      gen := alookup gGen g
      job_msg_level := alookup gJobMsgLevel g
      job_msg_msg := alookup gJobMsgMsg g
      points := alookup gPoints g
      msg_type := alookup gMsgType g
      msg := alookup gMsg g })

/-- Python truthiness of an optional capture: `None` and `''` are falsy. -/
def truthy : Option String → Bool
  | none => false
  | some s => ¬ s.isEmpty

/-- `ast.literal_eval` on a capture of `[\d\.]+`: an integer literal
(no leading zero except `0` itself) or a float literal with one dot;
anything else raises.  Values are modelled as exact rationals. -/
def literalEvalNum (s : String) : Option ℚ :=
  let cs := s.data
  if cs.isEmpty ∨ ¬ cs.all (fun c => c.isDigit || c = '.') then none
  else
    match (cs.filter (fun c => c = '.')).length with
    | 0 =>
      if cs.length = 1 ∨ ¬ cs.head? = some '0' then some (natOfDigits cs) else none
    | 1 =>
      let a := cs.takeWhile (fun c => ¬ c = '.')
      let b := (cs.dropWhile (fun c => ¬ c = '.')).tail
      if a.isEmpty ∧ b.isEmpty then none
      else some (mkRat (natOfDigits a * 10 ^ b.length + natOfDigits b) (10 ^ b.length))
    | _ => none

/-- `ScoreBoard.__generate_timestamp`: `f'{self.current_date}T{time}'`. -/
def genTimestamp (b : ScoreBoard) (time : String) : String :=
  (match b.current_date with
   | some d => d.str
   | none => "None") ++ "T" ++ time

/-- The state left by an exception that `read_log` catches. -/
def exceptState : Except ScoreBoard ScoreBoard → ScoreBoard
  | .ok b => b
  | .error b => b

def exceptIsOk {ε α : Type} : Except ε α → Bool
  | .ok _ => true
  | .error _ => false

/-! ### The handlers -/

/-- `ScoreBoard._handle_job_msg`. -/
def handle_job_msg (b : ScoreBoard) (info : Info) : Except ScoreBoard ScoreBoard :=
  match info.job_msg_msg with
  | none => .error b
  | some m =>
    if containsL "Program".data m.data then
      .ok { b with errors := b.errors ++ [genTimestamp b info.time] }
    else .ok b

/-- The `if slot in self.waiting:` block of `ScoreBoard._handle_start`:
close the idle interval.  The `FS_MAPPING` lookup can raise after the
`waited` date-key init. -/
def handle_start_idle (b : ScoreBoard) (info : Info) : Except ScoreBoard ScoreBoard :=
  match alookup info.slot b.waiting with
  | none => .ok b
  | some w =>
    match fromiso (genTimestamp b info.time) with
    | none => .error b
    | some dt =>
      let duration := dt - w
      let waited1 :=
        if (alookup b.current_date b.waited).isSome then b.waited
        else aset b.current_date [] b.waited
      match FS_MAPPING info.slot with
      | none => .error { b with waited := waited1 }
      | some fs =>
        let inner := (alookup b.current_date waited1).getD []
        let w' := (alookup fs inner).getD 0 + duration
        .ok { b with waited := aset b.current_date (aset fs w' inner) waited1
                     waiting := aerase info.slot b.waiting }

/-- `ScoreBoard._handle_start`.  The idle-interval bookkeeping runs
before the duplicate-triple check, exactly as in the source. -/
def handle_start (b : ScoreBoard) (info : Info) : Except ScoreBoard ScoreBoard :=
  match handle_start_idle b info with
  | .error b1 => .error b1
  | .ok b1 =>
    let entry : ScoreEntry :=
      { start := some (genTimestamp b info.time), project := info.project_id
        slot := some info.slot, unit := some info.unit }
    let same := b1.started.filter
      (fun e => e.slot = entry.slot ∧ e.project = entry.project ∧ e.unit = entry.unit)
    if same.isEmpty then .ok { b1 with started := b1.started ++ [entry] }
    else .ok b1

/-- `ScoreEntry.calculate_duration`: raises when either timestamp fails
`datetime.fromisoformat`. -/
def ScoreEntry.calculate_duration (e : ScoreEntry) : Option ScoreEntry :=
  match e.end_ with
  | none => none
  | some en =>
    match fromiso en with
    | none => none
    | some te =>
      match e.start with
      | none => none
      | some st =>
        match fromiso st with
        | none => none
        | some ts => some { e with duration := some (timedeltaStr (te - ts)) }

/-- The completion step of `_handle_end` once a record is found: remove
it (`list.remove` removes the first equal element; in-flight records
are pairwise distinct on reachable boards, so this is the found record
itself), set end and points, compute the duration — which can raise,
losing the record — and append to `scores`. -/
def complete_entry (b : ScoreBoard) (endTs : String) (points : ℚ) (f : ScoreEntry) :
    Except ScoreBoard ScoreBoard :=
  let started' := b.started.erase f
  match ({ f with end_ := some endTs, points := some points } : ScoreEntry).calculate_duration with
  | none => .error { b with started := started' }
  | some f2 => .ok { b with started := started', scores := b.scores ++ [f2] }

/-- `ScoreBoard._handle_end`.  The lookup loop has no `break`, so the
last matching record wins. -/
def handle_end (b : ScoreBoard) (info : Info) : Except ScoreBoard ScoreBoard :=
  match info.points with
  | none => .error b
  | some ptxt =>
    match literalEvalNum ptxt with
    | none => .error b
    | some points =>
      match b.started.foldl
        (fun acc e => if e.slot = some info.slot ∧ e.unit = some info.unit then some e else acc)
        none with
      | none => .ok b
      | some f => complete_entry b (genTimestamp b info.time) points f

/-- The dump branch of `ScoreBoard._handle_msg`: the scan stops at the
first match (`break`), and the `FS_MAPPING` lookup can raise after the
`dumped` date-key init. -/
def handle_msg_dump (b : ScoreBoard) (info : Info) : Except ScoreBoard ScoreBoard :=
  match b.started.find? (fun e => e.slot = some info.slot ∧ e.unit = some info.unit) with
  | none => .ok b
  | some e =>
    let dumped1 :=
      if (alookup b.current_date b.dumped).isSome then b.dumped
      else aset b.current_date [] b.dumped
    match FS_MAPPING info.slot with
    | none => .error { b with dumped := dumped1 }
    | some key =>
      let inner := (alookup b.current_date dumped1).getD []
      let n := (alookup key inner).getD 0 + 1
      .ok { b with dumped := aset b.current_date (aset key n inner) dumped1
                   started := b.started.erase e }

/-- `ScoreBoard._handle_msg`: the failed-assignment branch takes
priority over the dump branch. -/
def handle_msg (b : ScoreBoard) (info : Info) : Except ScoreBoard ScoreBoard :=
  match info.msg with
  | none => .error b
  | some msg =>
    if containsL STR_FAILED_ASSIGNMENT.data msg.data ∧ (alookup info.slot b.waiting).isNone then
      match fromiso (genTimestamp b info.time) with
      | none => .error b
      | some dt => .ok { b with waiting := aset info.slot dt b.waiting }
    else if containsL STR_DUMPED.data msg.data then
      handle_msg_dump b info
    else .ok b

/-- `ScoreBoard.handle_line`: a line that does not match `LINE_REGEX`
raises (`None.groupdict()`); a matching line is dispatched on the first
truthy group among `project_id`, `points`, `job_msg`, `msg`. -/
def handle_line (b : ScoreBoard) (line : String) : Except ScoreBoard ScoreBoard :=
  match parseLine line with
  | none => .error b
  | some info =>
    if truthy info.project_id then handle_start b info
    else if truthy info.points then handle_end b info
    else if truthy info.job_msg then handle_job_msg b info
    else if truthy info.msg then handle_msg b info
    else .ok b

/-- One iteration of `read_log`'s loop: `try: handle_line except: pass`. -/
def lineStep (b : ScoreBoard) (line : String) : ScoreBoard :=
  exceptState (handle_line b line)

def readLines (b : ScoreBoard) (lines : List String) : ScoreBoard :=
  lines.foldl lineStep b

/-- `pathlib.Path(file_name).stem`: the last path component, without
its suffix (the part from the last dot, when that dot is neither
leading nor trailing). -/
def stemOf (p : String) : String :=
  let cs := (p.data.reverse.takeWhile (fun c => ¬ c = '/')).reverse
  match cs.reverse.findIdx? (fun c => c = '.') with
  | none => cs.asString
  | some rj =>
    let i := cs.length - 1 - rj
    if 0 < i ∧ i < cs.length - 1 then (cs.take i).asString else cs.asString

/-- `ScoreBoard.set_current_date_from_file`; `today` models
`date.today()`, and an invalid 8-digit date raises out of the call. -/
def set_current_date_from_file (today : Date) (b : ScoreBoard) (file_name : String) :
    Except ScoreBoard ScoreBoard :=
  let name := stemOf file_name
  match reMatch dateRE name with
  | none => .ok { b with current_date := some today }
  | some g =>
    let y := natOfDigits ((alookup gYear g).getD "").data
    let mo := natOfDigits ((alookup gMonth g).getD "").data
    let d := natOfDigits ((alookup gDay g).getD "").data
    if validDate y mo d then .ok { b with current_date := some ⟨y, mo, d⟩ }
    else .error b

/-- `ScoreBoard.read_log`: the file's text is `content` (external I/O);
per-line exceptions are recovered, the date-resolution exception is
not. -/
def read_log (today : Date) (b : ScoreBoard) (log_file : String) (content : String) :
    Except ScoreBoard ScoreBoard :=
  match set_current_date_from_file today b log_file with
  | .error b' => .error b'
  | .ok b' => .ok (readLines b' (splitlines content))

/-- `ScoreEntry.__str__`: an unmapped (or unset) slot raises `KeyError`
while the field list is built; a `None` in any other field raises
`TypeError` inside `join`.  Either way the call raises. -/
def ScoreEntry.str (e : ScoreEntry) : Except Unit String :=
  match e.slot with
  | none => .error ()
  | some sl =>
    match FS_MAPPING sl with
    | none => .error ()
    | some fs =>
      match e.start, e.end_, e.duration, e.project, e.unit, e.points with
      | some st, some en, some du, some pr, some un, some pt =>
        .ok (st ++ "\t" ++ en ++ "\t" ++ du ++ "\t" ++ pr ++ "\t" ++ fs ++ "\t" ++ un
              ++ "\t" ++ toString pt)
      | _, _, _, _, _, _ => .error ()

/-- The evaluation of a Python list comprehension over a fallible
function: stops at the first raise. -/
def mapExcept {α β : Type} (f : α → Except Unit β) : List α → Except Unit (List β)
  | [] => .ok []
  | a :: rest =>
    match f a with
    | .error u => .error u
    | .ok b =>
      match mapExcept f rest with
      | .error u => .error u
      | .ok bs => .ok (b :: bs)

/-- `ScoreBoard.__str__`. -/
def ScoreBoard.str (b : ScoreBoard) : Except Unit String :=
  (mapExcept ScoreEntry.str b.scores).map (fun l => String.intercalate "\n" l)

/-- `ScoreBoard.total_points`; summing a `None` points field would
raise, modelled by `none`. -/
def total_points (b : ScoreBoard) : Option ℚ :=
  b.scores.foldl (fun acc e => do pure ((← acc) + (← e.points))) (some 0)

/-! ### Derived notions used by the claims -/

deriving instance DecidableEq for Except

/-- The `idle_total` cell for one date and slot-type, 0 when absent. -/
def waitedCell (b : ScoreBoard) (d : Option Date) (fs : String) : Int :=
  (alookup fs ((alookup d b.waited).getD [])).getD 0

/-- The `dumped_count` cell for one date and slot-type, 0 when absent. -/
def dumpedCell (b : ScoreBoard) (d : Option Date) (fs : String) : Nat :=
  (alookup fs ((alookup d b.dumped).getD [])).getD 0

/-- A well-formed completed record: end timestamp and points are set,
both timestamps parse, and the stored duration is exactly
`str(end - start)`. -/
def completedOK (e : ScoreEntry) : Bool :=
  match e.start, e.end_ with
  | some st, some en =>
    match fromiso st, fromiso en with
    | some ts, some te => e.points.isSome && decide (e.duration = some (timedeltaStr (te - ts)))
    | _, _ => false
  | _, _ => false

/-- The signed value `end - start` (in seconds) of a record's stored
timestamps. -/
def durationVal (e : ScoreEntry) : Option Int :=
  match e.start, e.end_ with
  | some st, some en =>
    match fromiso st, fromiso en with
    | some ts, some te => some (te - ts)
    | _, _ => none
  | _, _ => none

/-- Reachability invariant of a board: in-flight records are pairwise
distinct and open (`end_ = none`), completed records are well formed. -/
def Inv (b : ScoreBoard) : Prop :=
  b.started.Nodup ∧ (∀ e ∈ b.started, e.end_ = none) ∧ (∀ e ∈ b.scores, completedOK e = true)

instance (b : ScoreBoard) : Decidable (Inv b) := by unfold Inv; infer_instance

/-- Ingesting a sequence of (file name, content) logs into a fresh
board, recovering from `read_log`-level errors. -/
def ingestFiles (today : Date) (files : List (String × String)) : ScoreBoard :=
  files.foldl (fun b nc => exceptState (read_log today b nc.1 nc.2)) initBoard

/-! ### Claim C1: the example scenario -/

def c1Content : String :=
  "09:00:00:WU1:FS00:0x1:Project: 100 (Run 0, Clone 0, Gen 0)\n09:30:00:WU1:FS00:Final credit estimate, 12.5 points"

def c1Entry : ScoreEntry :=
  { project := some "100", start := some "2024-01-01T09:00:00",
    end_ := some "2024-01-01T09:30:00", duration := some "0:30:00",
    slot := some "FS00", unit := some "WU1", points := some (25 / 2 : ℚ) }

def c1Board : ScoreBoard :=
  { initBoard with scores := [c1Entry], current_date := some ⟨2024, 1, 1⟩ }

/-! ### Concrete scenarios used by the other claims' theorems -/

/-- An assignment line for unit `WU1`, slot `FS00`, project `100` at 09:00. -/
def asgLine : String := "09:00:00:WU1:FS00:0x1:Project: 100 (Run 0, Clone 0, Gen 0)"

/-- The same assignment, sent again at 09:20 (duplicate triple). -/
def asgLineDup : String := "09:20:00:WU1:FS00:0x1:Project: 100 (Run 0, Clone 0, Gen 0)"

/-- A failed-assignment message on `FS00` at 09:10. -/
def failLine : String := "09:10:00:WU1:FS00:Failed to get assignment"

/-- A message whose free text contains both the failed-assignment marker
and the dump marker. -/
def bothLine : String :=
  "09:05:00:WU1:FS00:Failed to get assignment Server did not like results, dumping"

def bothMsg : String :=
  "Failed to get assignment Server did not like results, dumping"

/-- Board reached by ingesting `log-20240101-1` containing just the
assignment line: one in-flight record on (FS00, WU1). -/
def oneStartedBoard : ScoreBoard :=
  exceptState (read_log ⟨2025, 5, 5⟩ initBoard "log-20240101-1" asgLine)

/-- Board reached by ingesting the assignment line and then the
failed-assignment message: one in-flight record, `FS00` marked idle. -/
def idleStartedBoard : ScoreBoard :=
  exceptState (read_log ⟨2025, 5, 5⟩ initBoard "log-20240101-1" (asgLine ++ "\n" ++ failLine))

/-- The group dictionary of `asgLineDup`. -/
def asgDupInfo : Info :=
  { time := "09:20:00", unit := "WU1", slot := "FS00", type_ := some "0x1",
    job_msg := some "Project: 100 (Run 0, Clone 0, Gen 0)",
    project_id := some "100", run := some "0", clone := some "0", gen := some "0" }

/-- A file whose completion line precedes (in time of day) its
assignment line: start 09:30, end 09:00. -/
def negContent : String :=
  "09:30:00:WU1:FS00:0x1:Project: 100 (Run 0, Clone 0, Gen 0)\n09:00:00:WU1:FS00:Final credit estimate, 12.5 points"

def negBoard : ScoreBoard :=
  exceptState (read_log ⟨2025, 5, 5⟩ initBoard "log-20240101-1" negContent)

/-- A failed-assignment message on the unmapped slot `FS02`. -/
def failLineFS02 : String := "09:00:00:WU1:FS02:Failed to get assignment"

/-- An assignment on the unmapped slot `FS02` at 09:05. -/
def asgLineFS02 : String := "09:05:00:WU1:FS02:0x1:Project: 100 (Run 0, Clone 0, Gen 0)"

/-- Board reached after the `FS02` failed-assignment message: `FS02` is
marked idle, so the next assignment must aggregate idle statistics. -/
def idleFS02Board : ScoreBoard :=
  exceptState (read_log ⟨2025, 5, 5⟩ initBoard "log-20240101-1" failLineFS02)

/-- A file whose unit is assigned and completed on the unmapped slot
`FS02`, yielding a completed record that cannot be rendered. -/
def fs02Content : String :=
  "09:00:00:WU1:FS02:0x1:Project: 100 (Run 0, Clone 0, Gen 0)\n09:30:00:WU1:FS02:Final credit estimate, 12.5 points"

def fs02Board : ScoreBoard :=
  exceptState (read_log ⟨2025, 5, 5⟩ initBoard "log-20240101-1" fs02Content)

/-- The completion line of the example scenario. -/
def creditLine : String := "09:30:00:WU1:FS00:Final credit estimate, 12.5 points"

/-- The group dictionary of `creditLine`. -/
def creditInfo : Info :=
  { time := "09:30:00", unit := "WU1", slot := "FS00", points := some "12.5" }

/-- A second assignment of the same unit id on the same slot but for
project `200`: after it, two in-flight records share (FS00, WU1). -/
def asg200Line : String := "09:10:00:WU1:FS00:0x1:Project: 200 (Run 0, Clone 0, Gen 0)"

/-- The in-flight record created by `asg200Line`. -/
def entry200 : ScoreEntry :=
  { project := some "200", start := some "2024-01-01T09:10:00",
    slot := some "FS00", unit := some "WU1" }

/-- Board with two in-flight records sharing (FS00, WU1). -/
def twoStartedBoard : ScoreBoard :=
  exceptState (read_log ⟨2025, 5, 5⟩ initBoard "log-20240101-1" (asgLine ++ "\n" ++ asg200Line))

/-- The completed record of the reversed-order scenario: its stored
duration is negative. -/
def negEntry : ScoreEntry :=
  { project := some "100", start := some "2024-01-01T09:30:00",
    end_ := some "2024-01-01T09:00:00", duration := some "-1 day, 23:30:00",
    slot := some "FS00", unit := some "WU1", points := some (mkRat 25 2) }

/-- The completed record on the unmapped slot `FS02`. -/
def fs02Entry : ScoreEntry :=
  { project := some "100", start := some "2024-01-01T09:00:00",
    end_ := some "2024-01-01T09:30:00", duration := some "0:30:00",
    slot := some "FS02", unit := some "WU1", points := some (mkRat 25 2) }

/-- The state at which the assignment on the idle unmapped slot `FS02`
raises: the `waited` date key has been initialised, the idle marker not
yet cleared. -/
def fs02ErrBoard : ScoreBoard :=
  { waiting := [("FS02", 1704099600)], waited := [(some ⟨2024, 1, 1⟩, [])],
    current_date := some ⟨2024, 1, 1⟩ }

/-- A fresh board whose date has been resolved from `log-20240101-1`
(empty file content). -/
def dateBoard : ScoreBoard :=
  exceptState (read_log ⟨2025, 5, 5⟩ initBoard "log-20240101-1" "")

/-- The group dictionary of `failLine`. -/
def failInfo : Info :=
  { time := "09:10:00", unit := "WU1", slot := "FS00",
    msg := some "Failed to get assignment" }

/-- An assignment on `FS00` at 09:15 (project 100, unit WU1). -/
def asgInfo915 : Info :=
  { time := "09:15:00", unit := "WU1", slot := "FS00", type_ := some "0x1",
    job_msg := some "Project: 100 (Run 0, Clone 0, Gen 0)",
    project_id := some "100", run := some "0", clone := some "0", gen := some "0" }

/-- A pure dump message on (FS00, WU1). -/
def dumpInfo : Info :=
  { time := "09:05:00", unit := "WU1", slot := "FS00",
    msg := some "Server did not like results, dumping" }

/-- The in-flight record created by `asgLine`. -/
def startedEntry100 : ScoreEntry :=
  { project := some "100", start := some "2024-01-01T09:00:00",
    slot := some "FS00", unit := some "WU1" }

/-- C1: ingesting a file named `log-20240101-1` whose content is exactly the
two lines of the example scenario into a fresh board (whatever the current
system date is) yields exactly one completed record with start
`2024-01-01T09:00:00`, end `2024-01-01T09:30:00`, duration `0:30:00`,
project `100`, slot `FS00` (of slot-type CPU), unit `WU1` and points
`12.5 = 25/2`, no in-flight records, and `total_points` then returns
`12.5`. -/
theorem c1_example_scenario (today : Date) :
    read_log today initBoard "log-20240101-1" c1Content = .ok c1Board ∧
    c1Board.scores = [c1Entry] ∧ c1Board.started = [] ∧
    FS_MAPPING "FS00" = some "CPU" ∧
    total_points c1Board = some (25 / 2 : ℚ) :=
  ⟨by with_unfolding_all rfl, rfl, rfl, rfl, by with_unfolding_all rfl⟩

/-- C1, instantiated at a concrete system date. -/
theorem c1_example_scenario_witness :
    read_log ⟨2025, 5, 5⟩ initBoard "log-20240101-1" c1Content = .ok c1Board :=
  (c1_example_scenario ⟨2025, 5, 5⟩).1

/-! ### Association-list lemmas -/

theorem alookup_aset_self {α β : Type} [DecidableEq α] (k : α) (v : β) (m : List (α × β)) :
    alookup k (aset k v m) = some v := by
  induction m with
  | nil => simp [aset, alookup]
  | cons p rest ih =>
    by_cases hp : p.1 = k
    · simp [aset, hp, alookup]
    · simp [aset, hp, alookup, ih]

theorem alookup_aset_ne {α β : Type} [DecidableEq α] {k k' : α} (h : ¬ k' = k) (v : β)
    (m : List (α × β)) : alookup k' (aset k v m) = alookup k' m := by
  induction m with
  | nil =>
    have h1 : ¬ (k = k') := fun hk => h hk.symm
    simp [aset, alookup, h1]
  | cons p rest ih =>
    by_cases hp : p.1 = k
    · have h1 : ¬ (k = k') := fun hk => h hk.symm
      have h2 : ¬ (p.1 = k') := fun hc => h ((hp.symm.trans hc).symm ▸ rfl)
      rw [aset, if_pos hp, alookup, if_neg h1, alookup, if_neg h2]
    · by_cases hp' : p.1 = k'
      · rw [aset, if_neg hp, alookup, if_pos hp', alookup, if_pos hp']
      · rw [aset, if_neg hp, alookup, if_neg hp', alookup, if_neg hp', ih]

theorem alookup_filter_none {α β : Type} [DecidableEq α] (k : α) (q : α × β → Bool)
    (m : List (α × β)) (hq : ∀ p, p.1 = k → q p = false) :
    alookup k (m.filter q) = none := by
  induction m with
  | nil => rfl
  | cons p rest ih =>
    rw [List.filter_cons]
    by_cases hp : q p = true
    · have hne : ¬ p.1 = k := fun hk => by rw [hq p hk] at hp; exact Bool.false_ne_true hp
      rw [if_pos hp, alookup, if_neg hne]
      exact ih
    · rw [if_neg hp]
      exact ih

theorem alookup_filter_other {α β : Type} [DecidableEq α] (k' : α) (q : α × β → Bool)
    (m : List (α × β)) (hq : ∀ p, p.1 = k' → q p = true) :
    alookup k' (m.filter q) = alookup k' m := by
  induction m with
  | nil => rfl
  | cons p rest ih =>
    rw [List.filter_cons]
    by_cases hp' : p.1 = k'
    · rw [if_pos (hq p hp'), alookup, if_pos hp', alookup, if_pos hp']
    · by_cases hp : q p = true
      · rw [if_pos hp, alookup, if_neg hp', ih, alookup, if_neg hp']
      · rw [if_neg hp, ih, alookup, if_neg hp']

theorem alookup_aerase_self {α β : Type} [DecidableEq α] (k : α) (m : List (α × β)) :
    alookup k (aerase k m) = none := by
  unfold aerase
  exact alookup_filter_none k _ m (fun p hp => by simp [hp])

theorem alookup_aerase_ne {α β : Type} [DecidableEq α] {k k' : α} (h : ¬ k' = k)
    (m : List (α × β)) : alookup k' (aerase k m) = alookup k' m := by
  unfold aerase
  exact alookup_filter_other k' _ m
    (fun p hp => by
      simp only [decide_eq_true_eq]
      exact fun hpk => h (hp.symm.trans hpk))

/-! ### List lemmas -/

theorem getLast?_cons_getD {α : Type} (a : α) (l : List α) :
    (a :: l).getLast? = some (l.getLast?.getD a) := by
  induction l generalizing a with
  | nil => rfl
  | cons b m ih =>
    rw [List.getLast?_cons_cons, ih b]
    simp

/-- The `for` loop of `_handle_end`: no `break`, so the accumulator ends
as the last element satisfying the predicate. -/
theorem foldl_if_last {α : Type} (p : α → Prop) [DecidablePred p] (l : List α) (acc : Option α) :
    l.foldl (fun a e => if p e then some e else a) acc =
      match (l.filter (fun e => decide (p e))).getLast? with
      | some x => some x
      | none => acc := by
  induction l generalizing acc with
  | nil => rfl
  | cons a rest ih =>
    rw [List.foldl_cons, List.filter_cons]
    by_cases h : p a
    · rw [if_pos h, if_pos (by simp [h]), ih, getLast?_cons_getD]
      cases hfr : (rest.filter (fun e => decide (p e))).getLast? <;> simp [hfr]
    · rw [if_neg h, if_neg (by simp [h]), ih]

/-! ### Frame and case lemmas for the handlers

Each lemma covers both the normal return and the raising return of a
handler (`.ok` / `.error`), since `read_log` recovers from either. -/

theorem handle_start_idle_frame (b : ScoreBoard) (info : Info) (b1 : ScoreBoard)
    (h : handle_start_idle b info = .ok b1 ∨ handle_start_idle b info = .error b1) :
    b1.started = b.started ∧ b1.scores = b.scores ∧ b1.errors = b.errors ∧
      b1.dumped = b.dumped ∧ b1.current_date = b.current_date := by
  unfold handle_start_idle at h
  rcases h with h | h <;>
    · repeat' split at h
      all_goals first
        | (cases h; exact ⟨rfl, rfl, rfl, rfl, rfl⟩)
        | exact Except.noConfusion h

theorem handle_start_cases (b : ScoreBoard) (info : Info) (b' : ScoreBoard)
    (h : handle_start b info = .ok b' ∨ handle_start b info = .error b') :
    b'.scores = b.scores ∧ b'.errors = b.errors ∧ b'.dumped = b.dumped ∧
      b'.current_date = b.current_date ∧
      (b'.started = b.started ∨
        ∃ en : ScoreEntry, b'.started = b.started ++ [en] ∧ en.end_ = none ∧ en ∉ b.started) := by
  unfold handle_start at h
  cases hs : handle_start_idle b info with
  | error b1 =>
    rw [hs] at h
    have hfr := handle_start_idle_frame b info b1 (Or.inr hs)
    rcases h with h | h
    · exact Except.noConfusion h
    · cases h
      exact ⟨hfr.2.1, hfr.2.2.1, hfr.2.2.2.1, hfr.2.2.2.2, Or.inl hfr.1⟩
  | ok b1 =>
    rw [hs] at h
    have hfr := handle_start_idle_frame b info b1 (Or.inl hs)
    simp only [] at h
    split at h
    · rename_i hsame
      rcases h with h | h
      · cases h
        refine ⟨hfr.2.1, hfr.2.2.1, hfr.2.2.2.1, hfr.2.2.2.2, Or.inr ?_⟩
        refine ⟨_, by rw [hfr.1], rfl, ?_⟩
        intro hmem
        rw [List.isEmpty_iff, List.filter_eq_nil_iff] at hsame
        exact hsame _ (by rw [hfr.1]; exact hmem) (by simp)
      · exact Except.noConfusion h
    · rcases h with h | h
      · cases h
        exact ⟨hfr.2.1, hfr.2.2.1, hfr.2.2.2.1, hfr.2.2.2.2, Or.inl hfr.1⟩
      · exact Except.noConfusion h

theorem handle_job_msg_cases (b : ScoreBoard) (info : Info) (b' : ScoreBoard)
    (h : handle_job_msg b info = .ok b' ∨ handle_job_msg b info = .error b') :
    b'.started = b.started ∧ b'.scores = b.scores ∧ b'.waiting = b.waiting ∧
      b'.waited = b.waited ∧ b'.dumped = b.dumped ∧ b'.current_date = b.current_date := by
  unfold handle_job_msg at h
  rcases h with h | h <;>
    · repeat' split at h
      all_goals first
        | (cases h; exact ⟨rfl, rfl, rfl, rfl, rfl, rfl⟩)
        | exact Except.noConfusion h

theorem handle_msg_dump_cases (b : ScoreBoard) (info : Info) (b' : ScoreBoard)
    (h : handle_msg_dump b info = .ok b' ∨ handle_msg_dump b info = .error b') :
    b'.scores = b.scores ∧ b'.errors = b.errors ∧ b'.waiting = b.waiting ∧
      b'.waited = b.waited ∧ b'.current_date = b.current_date ∧
      (b'.started = b.started ∨ ∃ e ∈ b.started, b'.started = b.started.erase e) := by
  unfold handle_msg_dump at h
  rcases h with h | h
  · split at h
    · cases h; exact ⟨rfl, rfl, rfl, rfl, rfl, Or.inl rfl⟩
    · rename_i e hfind
      have hmem : e ∈ b.started := List.mem_of_find?_eq_some hfind
      repeat' split at h
      all_goals first
        | exact Except.noConfusion h
        | (cases h; exact ⟨rfl, rfl, rfl, rfl, rfl, Or.inr ⟨e, hmem, rfl⟩⟩)
  · split at h
    · exact Except.noConfusion h
    · rename_i e hfind
      repeat' split at h
      all_goals first
        | exact Except.noConfusion h
        | (cases h; exact ⟨rfl, rfl, rfl, rfl, rfl, Or.inl rfl⟩)

theorem handle_msg_cases (b : ScoreBoard) (info : Info) (b' : ScoreBoard)
    (h : handle_msg b info = .ok b' ∨ handle_msg b info = .error b') :
    b'.scores = b.scores ∧ b'.errors = b.errors ∧ b'.current_date = b.current_date ∧
      (b'.started = b.started ∨ ∃ e ∈ b.started, b'.started = b.started.erase e) := by
  unfold handle_msg at h
  rcases h with h | h
  · split at h
    · exact Except.noConfusion h
    · split at h
      · split at h
        · exact Except.noConfusion h
        · cases h; exact ⟨rfl, rfl, rfl, Or.inl rfl⟩
      · split at h
        · have := handle_msg_dump_cases b info b' (Or.inl h)
          exact ⟨this.1, this.2.1, this.2.2.2.2.1, this.2.2.2.2.2⟩
        · cases h; exact ⟨rfl, rfl, rfl, Or.inl rfl⟩
  · split at h
    · cases h; exact ⟨rfl, rfl, rfl, Or.inl rfl⟩
    · split at h
      · split at h
        · cases h; exact ⟨rfl, rfl, rfl, Or.inl rfl⟩
        · exact Except.noConfusion h
      · split at h
        · have := handle_msg_dump_cases b info b' (Or.inr h)
          exact ⟨this.1, this.2.1, this.2.2.2.2.1, this.2.2.2.2.2⟩
        · exact Except.noConfusion h

theorem calculate_duration_ok (e e' : ScoreEntry) (h : e.calculate_duration = some e')
    (hp : e.points.isSome = true) :
    completedOK e' = true ∧
      ∃ du : String, e' = { e with duration := some du } := by
  unfold ScoreEntry.calculate_duration at h
  split at h
  · exact Option.noConfusion h
  · rename_i en hen
    split at h
    · exact Option.noConfusion h
    · rename_i te hte
      split at h
      · exact Option.noConfusion h
      · rename_i st hst
        split at h
        · exact Option.noConfusion h
        · rename_i ts hts
          cases h
          refine ⟨?_, timedeltaStr (te - ts), rfl⟩
          unfold completedOK
          simp only [hst, hen, hts, hte, hp]
          simp

theorem complete_entry_cases (b : ScoreBoard) (endTs : String) (points : ℚ) (f : ScoreEntry)
    (b' : ScoreBoard)
    (h : complete_entry b endTs points f = .ok b' ∨ complete_entry b endTs points f = .error b') :
    b'.errors = b.errors ∧ b'.waiting = b.waiting ∧ b'.waited = b.waited ∧
      b'.dumped = b.dumped ∧ b'.current_date = b.current_date ∧
      b'.started = b.started.erase f ∧
      (b'.scores = b.scores ∨
        ∃ f2, b'.scores = b.scores ++ [f2] ∧ completedOK f2 = true ∧
          ∃ en q du, f2 = { f with end_ := some en, points := some q, duration := some du }) := by
  unfold complete_entry at h
  rcases h with h | h
  · split at h
    · exact Except.noConfusion h
    · rename_i f2 hcalc
      cases h
      have hok := calculate_duration_ok _ _ hcalc (by simp)
      rcases hok.2 with ⟨du, hdu⟩
      refine ⟨rfl, rfl, rfl, rfl, rfl, rfl, Or.inr ⟨f2, rfl, hok.1, endTs, points, du, ?_⟩⟩
      rw [hdu]
  · split at h
    · cases h
      exact ⟨rfl, rfl, rfl, rfl, rfl, rfl, Or.inl rfl⟩
    · exact Except.noConfusion h

/-- The last matching in-flight record, as computed by the loop of
`_handle_end`. -/
theorem handle_end_found (b : ScoreBoard) (info : Info) :
    b.started.foldl
        (fun acc e => if e.slot = some info.slot ∧ e.unit = some info.unit then some e else acc)
        none =
      (b.started.filter
        (fun e => e.slot = some info.slot ∧ e.unit = some info.unit)).getLast? := by
  rw [foldl_if_last]
  cases h : (b.started.filter
      (fun e => e.slot = some info.slot ∧ e.unit = some info.unit)).getLast? <;> simp [h]

theorem getLast?_mem' {α : Type} {l : List α} {x : α} (h : l.getLast? = some x) : x ∈ l := by
  rcases List.mem_getLast?_eq_getLast (Option.mem_def.mpr h) with ⟨hne, rfl⟩
  exact List.getLast_mem hne

theorem handle_end_cases (b : ScoreBoard) (info : Info) (b' : ScoreBoard)
    (h : handle_end b info = .ok b' ∨ handle_end b info = .error b') :
    b'.errors = b.errors ∧ b'.waiting = b.waiting ∧ b'.waited = b.waited ∧
      b'.dumped = b.dumped ∧ b'.current_date = b.current_date ∧
      (b' = b ∨
        ∃ f, f ∈ b.started ∧ b'.started = b.started.erase f ∧
          (b'.scores = b.scores ∨
            ∃ f2, b'.scores = b.scores ++ [f2] ∧ completedOK f2 = true ∧
              ∃ en q du, f2 = { f with end_ := some en, points := some q, duration := some du })) := by
  unfold handle_end at h
  have hko : ∀ hk : handle_end b info = handle_end b info,
      True := fun _ => trivial
  clear hko
  rcases h with h | h
  · split at h
    · exact Except.noConfusion h
    · rename_i ptxt hptxt
      split at h
      · exact Except.noConfusion h
      · rename_i points hpoints
        split at h
        · cases h; exact ⟨rfl, rfl, rfl, rfl, rfl, Or.inl rfl⟩
        · rename_i f hfound
          rw [handle_end_found] at hfound
          have hmem : f ∈ b.started := List.mem_of_mem_filter (getLast?_mem' hfound)
          have := complete_entry_cases b (genTimestamp b info.time) points f b' (Or.inl h)
          exact ⟨this.1, this.2.1, this.2.2.1, this.2.2.2.1, this.2.2.2.2.1,
            Or.inr ⟨f, hmem, this.2.2.2.2.2.1, this.2.2.2.2.2.2⟩⟩
  · split at h
    · cases h; exact ⟨rfl, rfl, rfl, rfl, rfl, Or.inl rfl⟩
    · rename_i ptxt hptxt
      split at h
      · cases h; exact ⟨rfl, rfl, rfl, rfl, rfl, Or.inl rfl⟩
      · rename_i points hpoints
        split at h
        · exact Except.noConfusion h
        · rename_i f hfound
          rw [handle_end_found] at hfound
          have hmem : f ∈ b.started := List.mem_of_mem_filter (getLast?_mem' hfound)
          have := complete_entry_cases b (genTimestamp b info.time) points f b' (Or.inr h)
          exact ⟨this.1, this.2.1, this.2.2.1, this.2.2.2.1, this.2.2.2.2.1,
            Or.inr ⟨f, hmem, this.2.2.2.2.2.1, this.2.2.2.2.2.2⟩⟩

/-- Everything one line can do to the board: the date never changes,
and either the completed sequence is untouched (while in-flight records
are unchanged, extended by one fresh open record, or lose one member),
or a completion moves exactly one record from in-flight to completed. -/
theorem lineStep_cases (b : ScoreBoard) (line : String) :
    (lineStep b line).current_date = b.current_date ∧
    (((lineStep b line).scores = b.scores ∧
        ((lineStep b line).started = b.started ∨
          (∃ en, (lineStep b line).started = b.started ++ [en] ∧ en.end_ = none ∧
            en ∉ b.started) ∨
          ∃ e ∈ b.started, (lineStep b line).started = b.started.erase e)) ∨
      ∃ f, f ∈ b.started ∧ (lineStep b line).started = b.started.erase f ∧
        ∃ f2, (lineStep b line).scores = b.scores ++ [f2] ∧ completedOK f2 = true ∧
          ∃ en q du, f2 = { f with end_ := some en, points := some q, duration := some du }) := by
  unfold lineStep handle_line
  cases hp : parseLine line with
  | none => exact ⟨rfl, Or.inl ⟨rfl, Or.inl rfl⟩⟩
  | some info =>
    simp only []
    by_cases h1 : truthy info.project_id = true
    · rw [if_pos h1]
      cases hr : handle_start b info with
      | ok b' =>
        have := handle_start_cases b info b' (Or.inl hr)
        exact ⟨this.2.2.2.1, Or.inl ⟨this.1,
          this.2.2.2.2.elim Or.inl (fun h => Or.inr (Or.inl h))⟩⟩
      | error b' =>
        have := handle_start_cases b info b' (Or.inr hr)
        exact ⟨this.2.2.2.1, Or.inl ⟨this.1,
          this.2.2.2.2.elim Or.inl (fun h => Or.inr (Or.inl h))⟩⟩
    · rw [if_neg h1]
      by_cases h2 : truthy info.points = true
      · rw [if_pos h2]
        cases hr : handle_end b info with
        | ok b' =>
          have := handle_end_cases b info b' (Or.inl hr)
          refine ⟨this.2.2.2.2.1, ?_⟩
          rcases this.2.2.2.2.2 with rfl | ⟨f, hf, hst, hsc⟩
          · exact Or.inl ⟨rfl, Or.inl rfl⟩
          · rcases hsc with hsc | ⟨f2, hsc, hok, hshape⟩
            · exact Or.inl ⟨hsc, Or.inr (Or.inr ⟨f, hf, hst⟩)⟩
            · exact Or.inr ⟨f, hf, hst, f2, hsc, hok, hshape⟩
        | error b' =>
          have := handle_end_cases b info b' (Or.inr hr)
          refine ⟨this.2.2.2.2.1, ?_⟩
          rcases this.2.2.2.2.2 with rfl | ⟨f, hf, hst, hsc⟩
          · exact Or.inl ⟨rfl, Or.inl rfl⟩
          · rcases hsc with hsc | ⟨f2, hsc, hok, hshape⟩
            · exact Or.inl ⟨hsc, Or.inr (Or.inr ⟨f, hf, hst⟩)⟩
            · exact Or.inr ⟨f, hf, hst, f2, hsc, hok, hshape⟩
      · rw [if_neg h2]
        by_cases h3 : truthy info.job_msg = true
        · rw [if_pos h3]
          cases hr : handle_job_msg b info with
          | ok b' =>
            have := handle_job_msg_cases b info b' (Or.inl hr)
            exact ⟨this.2.2.2.2.2, Or.inl ⟨this.2.1, Or.inl this.1⟩⟩
          | error b' =>
            have := handle_job_msg_cases b info b' (Or.inr hr)
            exact ⟨this.2.2.2.2.2, Or.inl ⟨this.2.1, Or.inl this.1⟩⟩
        · rw [if_neg h3]
          by_cases h4 : truthy info.msg = true
          · rw [if_pos h4]
            cases hr : handle_msg b info with
            | ok b' =>
              have := handle_msg_cases b info b' (Or.inl hr)
              exact ⟨this.2.2.1, Or.inl ⟨this.1,
                this.2.2.2.elim Or.inl (fun h => Or.inr (Or.inr h))⟩⟩
            | error b' =>
              have := handle_msg_cases b info b' (Or.inr hr)
              exact ⟨this.2.2.1, Or.inl ⟨this.1,
                this.2.2.2.elim Or.inl (fun h => Or.inr (Or.inr h))⟩⟩
          · rw [if_neg h4]
            exact ⟨rfl, Or.inl ⟨rfl, Or.inl rfl⟩⟩

theorem inv_initBoard : Inv initBoard :=
  ⟨List.nodup_nil, fun e he => absurd he (List.not_mem_nil e),
    fun e he => absurd he (List.not_mem_nil e)⟩

theorem inv_lineStep (b : ScoreBoard) (line : String) (h : Inv b) : Inv (lineStep b line) := by
  obtain ⟨hnd, hopen, hdone⟩ := h
  obtain ⟨-, hc⟩ := lineStep_cases b line
  rcases hc with ⟨hsc, hst⟩ | ⟨f, hf, hst, f2, hsc, hok, -⟩
  · refine ⟨?_, ?_, ?_⟩
    · rcases hst with hst | ⟨en, hst, hen, hnotin⟩ | ⟨e, he, hst⟩
      · rw [hst]; exact hnd
      · rw [hst, List.nodup_append]
        exact ⟨hnd, List.nodup_singleton en, fun x hx hx' => hnotin (by
          rcases List.mem_singleton.mp hx' with rfl
          exact hx)⟩
      · rw [hst]; exact hnd.erase e
    · rcases hst with hst | ⟨en, hst, hen, hnotin⟩ | ⟨e, he, hst⟩
      · rw [hst]; exact hopen
      · rw [hst]
        intro x hx
        rcases List.mem_append.mp hx with hx | hx
        · exact hopen x hx
        · rcases List.mem_singleton.mp hx with rfl
          exact hen
      · rw [hst]
        exact fun x hx => hopen x (List.mem_of_mem_erase hx)
    · rw [hsc]
      exact hdone
  · refine ⟨?_, ?_, ?_⟩
    · rw [hst]; exact hnd.erase f
    · rw [hst]
      exact fun x hx => hopen x (List.mem_of_mem_erase hx)
    · rw [hsc]
      intro x hx
      rcases List.mem_append.mp hx with hx | hx
      · exact hdone x hx
      · rcases List.mem_singleton.mp hx with rfl
        exact hok

theorem inv_readLines (b : ScoreBoard) (lines : List String) (h : Inv b) :
    Inv (readLines b lines) := by
  induction lines generalizing b with
  | nil => exact h
  | cons l rest ih => exact ih (lineStep b l) (inv_lineStep b l h)

theorem set_current_date_state (today : Date) (b : ScoreBoard) (name : String)
    (b1 : ScoreBoard)
    (h : set_current_date_from_file today b name = .ok b1 ∨
      set_current_date_from_file today b name = .error b1) :
    b1.scores = b.scores ∧ b1.started = b.started := by
  unfold set_current_date_from_file at h
  simp only [] at h
  rcases h with h | h <;>
    · repeat' split at h
      all_goals first
        | (cases h; exact ⟨rfl, rfl⟩)
        | exact Except.noConfusion h

theorem inv_read_log (today : Date) (b : ScoreBoard) (name content : String) (h : Inv b) :
    Inv (exceptState (read_log today b name content)) := by
  unfold read_log
  cases hs : set_current_date_from_file today b name with
  | error b1 =>
    have hst := set_current_date_state today b name b1 (Or.inr hs)
    simp only [exceptState]
    exact ⟨hst.2 ▸ h.1, hst.2 ▸ h.2.1, hst.1 ▸ h.2.2⟩
  | ok b1 =>
    have hst := set_current_date_state today b name b1 (Or.inl hs)
    simp only [exceptState]
    exact inv_readLines b1 (splitlines content) ⟨hst.2 ▸ h.1, hst.2 ▸ h.2.1, hst.1 ▸ h.2.2⟩

theorem inv_ingestFiles (today : Date) (files : List (String × String)) :
    Inv (ingestFiles today files) := by
  unfold ingestFiles
  have hgen : ∀ (fs : List (String × String)) (b : ScoreBoard), Inv b →
      Inv (fs.foldl (fun b nc => exceptState (read_log today b nc.1 nc.2)) b) := by
    intro fs
    induction fs with
    | nil => exact fun b hb => hb
    | cons nc rest ih =>
      intro b hb
      exact ih _ (inv_read_log today b nc.1 nc.2 hb)
  exact hgen files initBoard inv_initBoard

theorem mapExcept_error {α β : Type} (f : α → Except Unit β) (l : List α)
    (x : α) (hx : x ∈ l) (hf : f x = .error ()) : mapExcept f l = .error () := by
  induction l with
  | nil => cases hx
  | cons a rest ih =>
    rcases List.mem_cons.mp hx with rfl | hmem
    · simp [mapExcept, hf]
    · unfold mapExcept
      cases hfa : f a with
      | error u => cases u; rfl
      | ok b => rw [ih hmem]

/-! ### Cell lemmas for the nested date/slot-type dictionaries -/

theorem alookup_init_getD {β : Type} (m : List (Option Date × List (String × β)))
    (cd d : Option Date) :
    (alookup d (if (alookup cd m).isSome then m
        else aset cd ([] : List (String × β)) m)).getD [] =
      (alookup d m).getD [] := by
  by_cases hc : (alookup cd m).isSome
  · rw [if_pos hc]
  · rw [if_neg hc]
    by_cases hd : d = cd
    · subst hd
      rw [alookup_aset_self]
      cases hm : alookup d m with
      | some v => rw [hm] at hc; simp at hc
      | none => rfl
    · rw [alookup_aset_ne hd]

theorem nest_cell_set_self {β : Type} (m1 : List (Option Date × List (String × β)))
    (cd : Option Date) (key : String) (v : β) (dflt : β) :
    (alookup key ((alookup cd
        (aset cd (aset key v ((alookup cd m1).getD [])) m1)).getD [])).getD dflt = v := by
  rw [alookup_aset_self]
  simp only [Option.getD_some]
  rw [alookup_aset_self]
  rfl

theorem nest_cell_set_other {β : Type} (m1 : List (Option Date × List (String × β)))
    (cd : Option Date) (key : String) (v : β) (d : Option Date) (k' : String) (dflt : β)
    (h : ¬ (d = cd ∧ k' = key)) :
    (alookup k' ((alookup d
        (aset cd (aset key v ((alookup cd m1).getD [])) m1)).getD [])).getD dflt =
      (alookup k' ((alookup d m1).getD [])).getD dflt := by
  by_cases hd : d = cd
  · subst hd
    have hk : ¬ k' = key := fun hk => h ⟨rfl, hk⟩
    rw [alookup_aset_self]
    simp only [Option.getD_some]
    rw [alookup_aset_ne hk]
  · rw [alookup_aset_ne hd]

/-! ### Precise behaviour of the idle-closing and dump steps -/

theorem handle_start_idle_none (b : ScoreBoard) (info : Info)
    (h : alookup info.slot b.waiting = none) : handle_start_idle b info = .ok b := by
  unfold handle_start_idle
  rw [h]

theorem handle_start_idle_close (b : ScoreBoard) (info : Info) (t1 t2 : Int) (fs : String)
    (hw : alookup info.slot b.waiting = some t1)
    (ht2 : fromiso (genTimestamp b info.time) = some t2)
    (hfs : FS_MAPPING info.slot = some fs) :
    ∃ wd, handle_start_idle b info =
        .ok { b with waited := wd, waiting := aerase info.slot b.waiting } ∧
      (alookup fs ((alookup b.current_date wd).getD [])).getD 0 =
        waitedCell b b.current_date fs + (t2 - t1) ∧
      (∀ (d : Option Date) (f' : String), ¬ (d = b.current_date ∧ f' = fs) →
        (alookup f' ((alookup d wd).getD [])).getD 0 = waitedCell b d f') := by
  unfold handle_start_idle
  rw [hw, ht2, hfs]
  refine ⟨_, rfl, ?_, ?_⟩
  · rw [nest_cell_set_self]
    unfold waitedCell
    rw [alookup_init_getD]
  · intro d f' hne
    rw [nest_cell_set_other _ _ _ _ _ _ _ hne]
    unfold waitedCell
    rw [alookup_init_getD]

theorem handle_msg_dump_found (b : ScoreBoard) (info : Info) (e : ScoreEntry) (fs : String)
    (hfind : b.started.find?
      (fun e => e.slot = some info.slot ∧ e.unit = some info.unit) = some e)
    (hfs : FS_MAPPING info.slot = some fs) :
    ∃ dd, handle_msg_dump b info =
        .ok { b with dumped := dd, started := b.started.erase e } ∧
      (alookup fs ((alookup b.current_date dd).getD [])).getD 0 =
        dumpedCell b b.current_date fs + 1 ∧
      (∀ (d : Option Date) (f' : String), ¬ (d = b.current_date ∧ f' = fs) →
        (alookup f' ((alookup d dd).getD [])).getD 0 = dumpedCell b d f') := by
  unfold handle_msg_dump
  rw [hfind, hfs]
  refine ⟨_, rfl, ?_, ?_⟩
  · rw [nest_cell_set_self]
    unfold dumpedCell
    rw [alookup_init_getD]
  · intro d f' hne
    rw [nest_cell_set_other _ _ _ _ _ _ _ hne]
    unfold dumpedCell
    rw [alookup_init_getD]

/-! ### Claim C2: last match wins on completion -/

/-- C2: when two or more in-flight records match a completion event's
(slot, unit), the linear scan (no early exit) selects the last matching
record in insertion order; exactly that record is removed from the
in-flight collection (they are pairwise distinct), given its end
timestamp and points, and appended to the completed sequence. -/
theorem c2_last_match_wins (b : ScoreBoard) (info : Info) (ptxt : String) (q : ℚ)
    (f : ScoreEntry) (st : String) (ts te : Int)
    (_hnd : b.started.Nodup)
    (hp : info.points = some ptxt) (hq : literalEvalNum ptxt = some q)
    (_htwo : 2 ≤ (b.started.filter (fun e =>
        e.slot = some info.slot ∧ e.unit = some info.unit)).length)
    (hlast : (b.started.filter (fun e =>
        e.slot = some info.slot ∧ e.unit = some info.unit)).getLast? = some f)
    (hst : f.start = some st) (hts : fromiso st = some ts)
    (hte : fromiso (genTimestamp b info.time) = some te) :
    handle_end b info = .ok { b with
      started := b.started.erase f,
      scores := b.scores ++
        [{ f with
            end_ := some (genTimestamp b info.time),
            points := some q,
            duration := some (timedeltaStr (te - ts)) }] } := by
  unfold handle_end
  rw [hp]
  simp only [hq, handle_end_found, hlast]
  unfold complete_entry ScoreEntry.calculate_duration
  simp only [hte, hst, hts]

/-- C2 at a concrete board: two in-flight records share (FS00, WU1)
(projects 100 and 200); completion selects the project-200 record. -/
theorem c2_last_match_wins_witness :
    handle_end twoStartedBoard creditInfo = .ok { twoStartedBoard with
      started := twoStartedBoard.started.erase entry200,
      scores := twoStartedBoard.scores ++
        [{ entry200 with
            end_ := some (genTimestamp twoStartedBoard creditInfo.time),
            points := some (mkRat 25 2),
            duration := some (timedeltaStr ((1704101400 : Int) - 1704100200)) }] } :=
  c2_last_match_wins twoStartedBoard creditInfo "12.5" (mkRat 25 2) entry200
    "2024-01-01T09:10:00" 1704100200 1704101400
    (by decide) rfl (by decide) (by decide) (by decide) rfl (by decide) (by decide)

/-! ### Claim C3: per-line recovery -/

/-- C4: a failed-assignment message marks a slot idle only if it is not
already idle (later failed-assignment messages never change the
marker), and the next assignment on the slot adds exactly `t2 - t1` to
`idle_total` for the current date and the slot's type (other cells
untouched) and clears the marker.  The slot is presupposed mapped and
the timestamps well formed. -/
theorem c4_idle_accounting (b : ScoreBoard) (infoF infoA : Info) (mF : String)
    (t1 t2 : Int) (fs : String) :
    (infoF.msg = some mF → containsL STR_FAILED_ASSIGNMENT.data mF.data = true →
      ((alookup infoF.slot b.waiting = none →
          fromiso (genTimestamp b infoF.time) = some t1 →
          handle_msg b infoF = .ok { b with waiting := aset infoF.slot t1 b.waiting }) ∧
        ((alookup infoF.slot b.waiting).isSome = true →
          (exceptState (handle_msg b infoF)).waiting = b.waiting))) ∧
    (alookup infoA.slot b.waiting = some t1 →
      fromiso (genTimestamp b infoA.time) = some t2 →
      FS_MAPPING infoA.slot = some fs →
      ∃ b', handle_start b infoA = .ok b' ∧
        alookup infoA.slot b'.waiting = none ∧
        waitedCell b' b.current_date fs = waitedCell b b.current_date fs + (t2 - t1) ∧
        (∀ (d : Option Date) (f' : String), ¬ (d = b.current_date ∧ f' = fs) →
          waitedCell b' d f' = waitedCell b d f')) := by
  constructor
  · intro hm hfail
    constructor
    · intro hnone ht1
      unfold handle_msg
      rw [hm]
      simp only []
      rw [if_pos ⟨hfail, by rw [hnone]; rfl⟩]
      simp only [ht1]
    · intro hsome
      unfold handle_msg
      rw [hm]
      simp only []
      have hcond : ¬ (containsL STR_FAILED_ASSIGNMENT.data mF.data = true ∧
          (alookup infoF.slot b.waiting).isNone = true) := by
        rintro ⟨-, hno⟩
        cases hx : alookup infoF.slot b.waiting with
        | none => rw [hx] at hsome; simp at hsome
        | some w => rw [hx] at hno; simp at hno
      rw [if_neg hcond]
      by_cases hd : containsL STR_DUMPED.data mF.data = true
      · rw [if_pos hd]
        cases hr : handle_msg_dump b infoF with
        | ok b2 => exact (handle_msg_dump_cases b infoF b2 (Or.inl hr)).2.2.1
        | error b2 => exact (handle_msg_dump_cases b infoF b2 (Or.inr hr)).2.2.1
      · rw [if_neg hd]
        rfl
  · intro hw ht2 hfs
    obtain ⟨wd, hidle, hself, hother⟩ := handle_start_idle_close b infoA t1 t2 fs hw ht2 hfs
    unfold handle_start
    rw [hidle]
    simp only []
    by_cases hsame : (b.started.filter (fun e =>
        e.slot = some infoA.slot ∧ e.project = infoA.project_id ∧
        e.unit = some infoA.unit)).isEmpty = true
    · rw [if_pos hsame]
      exact ⟨_, rfl, alookup_aerase_self _ _, hself, hother⟩
    · rw [if_neg hsame]
      exact ⟨_, rfl, alookup_aerase_self _ _, hself, hother⟩

/-- C4 at concrete boards: the failed-assignment message at 09:10 marks
`FS00` idle; the assignment at 09:15 on the board where `FS00` has been
idle since 09:10 adds exactly 300 seconds to `idle_total[2024-01-01][CPU]`
and clears the marker. -/
theorem c4_idle_accounting_witness :
    handle_msg dateBoard failInfo =
      .ok { dateBoard with waiting := aset "FS00" 1704100200 dateBoard.waiting } ∧
    (∃ b', handle_start idleStartedBoard asgInfo915 = .ok b' ∧
      alookup "FS00" b'.waiting = none ∧
      waitedCell b' idleStartedBoard.current_date "CPU" =
        waitedCell idleStartedBoard idleStartedBoard.current_date "CPU" +
          ((1704100500 : Int) - 1704100200) ∧
      (∀ (d : Option Date) (f' : String),
        ¬ (d = idleStartedBoard.current_date ∧ f' = "CPU") →
        waitedCell b' d f' = waitedCell idleStartedBoard d f')) := by
  constructor
  · exact ((c4_idle_accounting dateBoard failInfo asgInfo915 "Failed to get assignment"
      1704100200 1704100500 "CPU").1 rfl (by decide)).1 (by decide) (by decide)
  · exact (c4_idle_accounting idleStartedBoard failInfo asgInfo915
      "Failed to get assignment" 1704100200 1704100500 "CPU").2 (by decide) (by decide) rfl

/-! ### Claim C5: dump messages -/

/-- C5 fails as stated: a message containing both the dump marker and
the failed-assignment marker, on a slot not marked idle, takes the
failed-assignment branch: the matching in-flight record is not removed
and `dumped_count` does not change (and for a no-match board it would
not be a no-op either). -/
theorem c5_counterexample :
    (parseLine bothLine).map Info.msg = some (some bothMsg) ∧
    containsL STR_DUMPED.data bothMsg.data = true ∧
    (oneStartedBoard.started.find? (fun e =>
      e.slot = some "FS00" ∧ e.unit = some "WU1")).isSome = true ∧
    (lineStep oneStartedBoard bothLine).started = oneStartedBoard.started ∧
    (lineStep oneStartedBoard bothLine).dumped = oneStartedBoard.dumped := by
  decide

/-- C5 as amended: for every message containing the dump marker —
except when it also contains the failed-assignment marker while the
slot is unmarked, in which case the failed-assignment branch runs
instead — the first matching record in scan order is removed without
being appended to the completed sequence and `dumped_count` for the
current date and the slot's type increases by exactly one (other cells
untouched); with no matching record the message is a no-op. -/
theorem c5_dump_message (b : ScoreBoard) (info : Info) (m : String)
    (hm : info.msg = some m)
    (hdump : containsL STR_DUMPED.data m.data = true)
    (hnofail : ¬ (containsL STR_FAILED_ASSIGNMENT.data m.data = true ∧
      (alookup info.slot b.waiting).isNone = true)) :
    (∀ e fs, b.started.find?
        (fun e => e.slot = some info.slot ∧ e.unit = some info.unit) = some e →
      FS_MAPPING info.slot = some fs →
      ∃ b', handle_msg b info = .ok b' ∧
        b'.started = b.started.erase e ∧ b'.scores = b.scores ∧
        dumpedCell b' b.current_date fs = dumpedCell b b.current_date fs + 1 ∧
        (∀ (d : Option Date) (f' : String), ¬ (d = b.current_date ∧ f' = fs) →
          dumpedCell b' d f' = dumpedCell b d f')) ∧
    (b.started.find? (fun e => e.slot = some info.slot ∧ e.unit = some info.unit) = none →
      handle_msg b info = .ok b) := by
  have hmsg : handle_msg b info = handle_msg_dump b info := by
    unfold handle_msg
    rw [hm]
    simp only []
    rw [if_neg hnofail, if_pos hdump]
  constructor
  · intro e fs hfind hfs
    obtain ⟨dd, hdmp, hself, hother⟩ := handle_msg_dump_found b info e fs hfind hfs
    refine ⟨{ b with dumped := dd, started := b.started.erase e }, ?_, rfl, rfl, hself, hother⟩
    rw [hmsg, hdmp]
  · intro hfind
    rw [hmsg]
    unfold handle_msg_dump
    rw [hfind]

/-- C5 (amended) at a concrete board: a pure dump message on (FS00, WU1)
removes the in-flight record and bumps `dumped_count[2024-01-01][CPU]`
by one. -/
theorem c5_dump_message_witness :
    ∃ b', handle_msg oneStartedBoard dumpInfo = .ok b' ∧
      b'.started = oneStartedBoard.started.erase startedEntry100 ∧
      b'.scores = oneStartedBoard.scores ∧
      dumpedCell b' oneStartedBoard.current_date "CPU" =
        dumpedCell oneStartedBoard oneStartedBoard.current_date "CPU" + 1 ∧
      (∀ (d : Option Date) (f' : String),
        ¬ (d = oneStartedBoard.current_date ∧ f' = "CPU") →
        dumpedCell b' d f' = dumpedCell oneStartedBoard d f') :=
  (c5_dump_message oneStartedBoard dumpInfo "Server did not like results, dumping"
    rfl (by decide) (by decide)).1 startedEntry100 "CPU" (by decide) rfl

/-! ### Claim C6: duplicate assignments -/

/-- C6 fails as stated: a duplicate assignment (same slot, project,
unit) on a board whose slot is marked idle does change the board — the
idle bookkeeping runs before the duplicate check. -/
theorem c6_counterexample :
    parseLine asgLineDup = some asgDupInfo ∧
    truthy asgDupInfo.project_id = true ∧
    idleStartedBoard.started.filter (fun e =>
        e.slot = some asgDupInfo.slot ∧ e.project = asgDupInfo.project_id ∧
        e.unit = some asgDupInfo.unit) ≠ [] ∧
    lineStep idleStartedBoard asgLineDup ≠ idleStartedBoard := by
  decide

/-- C6 as amended: an assignment whose (slot, project, unit) triple
already has an in-flight record inserts nothing — `started`, `scores`,
`errors` and `dumped` are unchanged — and when the slot is not marked
idle the whole board is unchanged; but when the slot is marked idle
(since `t1`) the idle interval is still closed despite the duplicate:
the marker is cleared and exactly `t2 - t1` is added to the
`idle_total` cell for the current date and the slot's type, other
cells untouched. -/
theorem c6_duplicate_assignment (b : ScoreBoard) (info : Info)
    (hmatch : b.started.filter (fun e =>
      e.slot = some info.slot ∧ e.project = info.project_id ∧
      e.unit = some info.unit) ≠ [])
    (hsafe : (alookup info.slot b.waiting).isSome = true →
      (fromiso (genTimestamp b info.time)).isSome = true ∧
      (FS_MAPPING info.slot).isSome = true) :
    ∃ b', handle_start b info = .ok b' ∧
      b'.started = b.started ∧ b'.scores = b.scores ∧ b'.errors = b.errors ∧
      b'.dumped = b.dumped ∧
      (alookup info.slot b.waiting = none → b' = b) ∧
      (∀ (t1 t2 : Int) (fs : String), alookup info.slot b.waiting = some t1 →
        fromiso (genTimestamp b info.time) = some t2 →
        FS_MAPPING info.slot = some fs →
        alookup info.slot b'.waiting = none ∧
        waitedCell b' b.current_date fs = waitedCell b b.current_date fs + (t2 - t1) ∧
        (∀ (d : Option Date) (f' : String), ¬ (d = b.current_date ∧ f' = fs) →
          waitedCell b' d f' = waitedCell b d f')) := by
  have hne : ¬ ((b.started.filter (fun e =>
      e.slot = some info.slot ∧ e.project = info.project_id ∧
      e.unit = some info.unit)).isEmpty = true) :=
    fun hempty => hmatch (List.isEmpty_iff.mp hempty)
  cases hw : alookup info.slot b.waiting with
  | none =>
    have hidle := handle_start_idle_none b info hw
    unfold handle_start
    rw [hidle]
    simp only []
    rw [if_neg hne]
    exact ⟨b, rfl, rfl, rfl, rfl, rfl, fun _ => rfl,
      fun t1 t2 fs h1 _ _ => Option.noConfusion h1⟩
  | some w =>
    obtain ⟨hf, hmap⟩ := hsafe (by rw [hw]; rfl)
    obtain ⟨t2, ht2⟩ := Option.isSome_iff_exists.mp hf
    obtain ⟨fs, hfs⟩ := Option.isSome_iff_exists.mp hmap
    obtain ⟨wd, hidle, hself, hother⟩ := handle_start_idle_close b info w t2 fs hw ht2 hfs
    unfold handle_start
    rw [hidle]
    simp only []
    rw [if_neg hne]
    refine ⟨_, rfl, rfl, rfl, rfl, rfl, ?_, ?_⟩
    · intro hnone; exact Option.noConfusion hnone
    · intro t1 t2x fsx h1 h2 h3
      obtain rfl : w = t1 := Option.some.inj h1
      obtain rfl : t2x = t2 := by rw [h2] at ht2; exact Option.some.inj ht2
      obtain rfl : fsx = fs := by rw [h3] at hfs; exact Option.some.inj hfs
      exact ⟨alookup_aerase_self _ _, hself, hother⟩

/-- C6 (amended) at a concrete board: the duplicate assignment on the
idle-marked slot leaves `started`, `scores`, `errors`, `dumped`
unchanged, clears the idle marker, and adds exactly the 600-second gap
(09:10 to 09:20) to `idle_total[2024-01-01][CPU]`, other cells
untouched. -/
theorem c6_duplicate_assignment_witness :
    ∃ b', handle_start idleStartedBoard asgDupInfo = .ok b' ∧
      b'.started = idleStartedBoard.started ∧ b'.scores = idleStartedBoard.scores ∧
      b'.errors = idleStartedBoard.errors ∧ b'.dumped = idleStartedBoard.dumped ∧
      (alookup "FS00" idleStartedBoard.waiting = none → b' = idleStartedBoard) ∧
      (∀ (t1 t2 : Int) (fs : String),
        alookup "FS00" idleStartedBoard.waiting = some t1 →
        fromiso (genTimestamp idleStartedBoard asgDupInfo.time) = some t2 →
        FS_MAPPING "FS00" = some fs →
        alookup "FS00" b'.waiting = none ∧
        waitedCell b' idleStartedBoard.current_date fs =
          waitedCell idleStartedBoard idleStartedBoard.current_date fs + (t2 - t1) ∧
        (∀ (d : Option Date) (f' : String),
          ¬ (d = idleStartedBoard.current_date ∧ f' = fs) →
          waitedCell b' d f' = waitedCell idleStartedBoard d f')) :=
  c6_duplicate_assignment idleStartedBoard asgDupInfo (by decide) (fun _ => by decide)

/-! ### Claim C7: shape of completed records -/

/-- C7 fails as stated: the reversed-order file yields a completed
record whose duration (end − start) is −1800 seconds, stored as the
negative `str(timedelta)`. -/
theorem c7_counterexample :
    negBoard.scores.map ScoreEntry.duration = [some "-1 day, 23:30:00"] ∧
    negBoard.scores.map durationVal = [some (-1800 : Int)] ∧ (-1800 : Int) < 0 := by
  decide

/-- C7 as amended: after any sequence of ingested log files, every
completed record has its end timestamp and points set and its stored
duration equal to `str(end - start)`; the non-negativity part of the
claim does not hold (no validation is performed). -/
theorem c7_completed_shape (today : Date) (files : List (String × String)) :
    ∀ e ∈ (ingestFiles today files).scores, completedOK e = true :=
  (inv_ingestFiles today files).2.2

/-- C7 (amended) at the concrete reversed-order file. -/
theorem c7_completed_shape_witness : completedOK negEntry = true :=
  c7_completed_shape ⟨2025, 5, 5⟩ [("log-20240101-1", negContent)] negEntry (by decide)

/-! ### Claim C8: credit-estimate parsing -/

/-- C9 fails as stated: the unmapped slot `FS02`, hit while aggregating
idle statistics during ingestion, raises inside the per-line handler —
but `read_log` catches it and returns normally, so no error reaches the
ingestion operation's caller. -/
theorem c9_counterexample :
    FS_MAPPING "FS02" = none ∧
    handle_line idleFS02Board asgLineFS02 = .error fs02ErrBoard ∧
    exceptIsOk (read_log ⟨2025, 5, 5⟩ initBoard "log-20240101-1"
      (failLineFS02 ++ "\n" ++ asgLineFS02)) = true := by
  decide

theorem entry_str_error (e : ScoreEntry) (sl : String) (hsl : e.slot = some sl)
    (hmap : FS_MAPPING sl = none) : ScoreEntry.str e = .error () := by
  unfold ScoreEntry.str
  rw [hsl]
  simp only [hmap]

/-- C9 as amended: an unmapped slot id encountered while rendering makes
the rendering operation fail and the error reach its caller; but an
unmapped slot hit while aggregating idle or dump statistics during
ingestion only makes the per-line handler raise — `read_log` catches
it, keeps the raising handler's partial state, and processes the
remaining lines, so the error never reaches the ingestion caller. -/
theorem c9_unmapped_slot (b : ScoreBoard) (e : ScoreEntry) (sl : String)
    (line : String) (rest : List String) (bErr : ScoreBoard) :
    (e ∈ b.scores → e.slot = some sl → FS_MAPPING sl = none →
      ScoreBoard.str b = .error ()) ∧
    (handle_line b line = .error bErr →
      lineStep b line = bErr ∧ readLines b (line :: rest) = readLines bErr rest) := by
  constructor
  · intro hmem hsl hmap
    unfold ScoreBoard.str
    rw [mapExcept_error ScoreEntry.str b.scores e hmem (entry_str_error e sl hsl hmap)]
    rfl
  · intro herr
    have h2 : lineStep b line = bErr := by unfold lineStep; rw [herr]; rfl
    exact ⟨h2, by
      rw [show readLines b (line :: rest) = readLines (lineStep b line) rest from rfl, h2]⟩

/-- C9 (amended) at concrete boards: rendering the board with a
completed `FS02` record fails; the `FS02` assignment on the idle-marked
board raises per-line and ingestion continues from the partial state. -/
theorem c9_unmapped_slot_witness :
    ScoreBoard.str fs02Board = .error () ∧
    (lineStep idleFS02Board asgLineFS02 = fs02ErrBoard ∧
      readLines idleFS02Board (asgLineFS02 :: []) = readLines fs02ErrBoard []) := by
  constructor
  · exact (c9_unmapped_slot fs02Board fs02Entry "FS02" "" [] initBoard).1
      (by decide) rfl rfl
  · exact (c9_unmapped_slot idleFS02Board fs02Entry "FS02" asgLineFS02 [] fs02ErrBoard).2
      (by decide)

/-! ### Claim C10: lifecycle invariants of one line step -/

theorem completedOK_end_isSome (e : ScoreEntry) (h : completedOK e = true) :
    ¬ e.end_ = none := by
  intro hn
  cases hst : e.start <;> simp [completedOK, hst, hn] at h

/-- C10: every line-processing step preserves the lifecycle invariant
(pairwise-distinct open in-flight records, well-formed completed
records), keeps the completed sequence append-only, keeps completed and
in-flight records disjoint, and a successful completion removes from
in-flight exactly the record it appends to completed, in the same
step. -/
theorem c10_lifecycle_invariants (b : ScoreBoard) (line : String) (hInv : Inv b) :
    Inv initBoard ∧ Inv (lineStep b line) ∧
    (∃ tail, (lineStep b line).scores = b.scores ++ tail) ∧
    (∀ e ∈ (lineStep b line).scores, e ∉ (lineStep b line).started) ∧
    ((lineStep b line).scores = b.scores ∨
      ∃ f, f ∈ b.started ∧ (lineStep b line).started = b.started.erase f ∧
        ∃ en q du, (lineStep b line).scores =
          b.scores ++ [{ f with end_ := some en, points := some q, duration := some du }]) := by
  have hinv' := inv_lineStep b line hInv
  obtain ⟨-, hc⟩ := lineStep_cases b line
  refine ⟨inv_initBoard, hinv', ?_, ?_, ?_⟩
  · rcases hc with ⟨hsc, -⟩ | ⟨f, -, -, f2, hsc, -, -⟩
    · exact ⟨[], by rw [hsc, List.append_nil]⟩
    · exact ⟨[f2], hsc⟩
  · intro e he hmem
    exact completedOK_end_isSome e (hinv'.2.2 e he) (hinv'.2.1 e hmem)
  · rcases hc with ⟨hsc, -⟩ | ⟨f, hf, hst, f2, hsc, -, en, q, du, hshape⟩
    · exact Or.inl hsc
    · exact Or.inr ⟨f, hf, hst, en, q, du, by rw [hsc, hshape]⟩

/-- C10 at the concrete completion step of the example scenario. -/
theorem c10_lifecycle_invariants_witness :
    Inv (lineStep oneStartedBoard creditLine) ∧
    (∃ tail, (lineStep oneStartedBoard creditLine).scores =
      oneStartedBoard.scores ++ tail) :=
  ⟨(c10_lifecycle_invariants oneStartedBoard creditLine (by decide)).2.1,
   (c10_lifecycle_invariants oneStartedBoard creditLine (by decide)).2.2.1⟩

end FahMon
